import Mathlib

/-!
Shallow embedding of the cross-source reconciliation and capability
introspection core of the docker-mcp-scraper repository.

Embedded source files:
  src/agent/models.py      -- the record model (MCPServer and sub-entities)
  src/agent/aggregator.py  -- MCPServerAggregator.deduplicate_servers,
                              _is_more_complete, _completeness_score
  src/agent/mcp_client.py  -- MCPClient.introspect_server and
                              MCPClient.batch_introspect

Modelling conventions:
  - Python datetime values are abstracted to Nat timestamps; datetime
    objects are always truthy in Python, so an optional datetime field is
    truthy iff it is some.
  - Python optional strings are truthy iff present and non-empty.
  - Python dict and list fields that the core never inspects are carried
    as association lists over an abstract value type PyVal.
  - Python float fields (never read by the embedded functions) are
    carried as rationals.
  - The I/O performed by the Docker stdio and HTTP transports is
    abstracted into a ProbeEnv describing, per transport, whether the
    attempt returns capability lists or raises with a message; the
    surrounding control flow of introspect_server is embedded faithfully.
-/

namespace DockerMCPScraper

/-- Model of an arbitrary Python value, used for fields the core never
inspects (json-ish payloads such as tool input schemas). -/
inductive PyVal where
  | str : String → PyVal
  | int : Int → PyVal
  | bool : Bool → PyVal
  | pynone : PyVal
  | list : List PyVal → PyVal
  | dict : List (String × PyVal) → PyVal

/-- MCPTransport enum from src/agent/models.py. -/
inductive MCPTransport where
  | stdio
  | websocket
  | http
  | sse
deriving DecidableEq

/-- MCPTool from src/agent/models.py. -/
structure MCPTool where
  name : String
  title : Option String := none
  description : String
  input_schema : List (String × PyVal) := []
  output_schema : Option (List (String × PyVal)) := none
  annotations : Option (List (String × PyVal)) := none
  is_destructive : Bool := false
  requires_auth : Bool := false
  category : Option String := none

/-- MCPResource from src/agent/models.py. -/
structure MCPResource where
  uri : String
  name : String
  description : Option String := none
  mime_type : Option String := none
  annotations : Option (List (String × PyVal)) := none
  size : Option Int := none
  last_modified : Option Nat := none

/-- MCPPrompt from src/agent/models.py. -/
structure MCPPrompt where
  name : String
  title : Option String := none
  description : Option String := none
  arguments : List (List (String × PyVal)) := []
  annotations : Option (List (String × PyVal)) := none
  category : Option String := none

/-- MCPServerCapabilities from src/agent/models.py. -/
structure MCPServerCapabilities where
  tools : Bool := false
  resources : Bool := false
  prompts : Bool := false
  logging : Bool := false
  experimental : List (String × PyVal) := []

/-- MCPServerMetadata from src/agent/models.py. -/
structure MCPServerMetadata where
  protocol_version : Option String := none
  supported_transports : List MCPTransport := []
  authentication_methods : List String := []
  security_annotations : List (String × PyVal) := []
  capabilities : MCPServerCapabilities := {}
  runtime_requirements : List (String × PyVal) := []

/-- MCPServerHealth from src/agent/models.py.  The status field ranges
over the strings unknown, introspecting, healthy, unhealthy,
unreachable. -/
structure MCPServerHealth where
  status : String := "unknown"
  last_checked : Option Nat := none
  response_time_ms : Option Rat := none
  error_message : Option String := none
  uptime_percentage : Option Rat := none

/-- MCPServer from src/agent/models.py: the canonical server record. -/
structure MCPServer where
  id : String
  name : String
  description : Option String := none
  url : Option String := none
  docker_image : Option String := none
  tags : List String := []
  created_at : Option Nat := none
  updated_at : Option Nat := none
  source : String
  namespace_ : Option String := none
  metadata : MCPServerMetadata := {}
  tools : List MCPTool := []
  resources : List MCPResource := []
  prompts : List MCPPrompt := []
  health : MCPServerHealth := {}
  last_introspected : Option Nat := none
  introspection_errors : List String := []
  docker_labels : List (String × String) := []
  docker_pull_count : Option Int := none
  docker_star_count : Option Int := none
  popularity_score : Option Rat := none
  trust_score : Option Rat := none
  categories : List String := []

/-- Python truthiness of an optional string field: present and non-empty. -/
def pyTruthyStr : Option String → Bool
  | none => false
  | some s => !s.isEmpty

/-- MCPServerAggregator._completeness_score from src/agent/aggregator.py,
lines 114-154.  Every increment is non-negative, so the Python int is
modelled as a Nat; the additions mirror the sequential score updates. -/
def completeness_score (server : MCPServer) : Nat :=
  (if pyTruthyStr server.description then 2 else 0) +
  (if pyTruthyStr server.url then 2 else 0) +
  (if pyTruthyStr server.docker_image then 3 else 0) +
  (if !server.tags.isEmpty then server.tags.length else 0) +
  (if server.created_at.isSome then 1 else 0) +
  (if server.updated_at.isSome then 1 else 0) +
  (if !server.tools.isEmpty then 5 + server.tools.length else 0) +
  (if !server.resources.isEmpty then 3 + server.resources.length else 0) +
  (if !server.prompts.isEmpty then 3 + server.prompts.length else 0) +
  (if pyTruthyStr server.metadata.protocol_version then 2 else 0) +
  (if !server.docker_labels.isEmpty then 2 else 0) +
  (if server.health.status = "healthy" then 3 else 0) +
  (if server.last_introspected.isSome then 2 else 0) +
  (if server.source = "docker_hub" && pyTruthyStr server.docker_image then 2 else 0)

/-- MCPServerAggregator._is_more_complete from src/agent/aggregator.py:
true iff the first server has a strictly higher completeness score. -/
def is_more_complete (server1 server2 : MCPServer) : Bool :=
  completeness_score server2 < completeness_score server1

/-- Model of Python str.lower: lowercase every character.  Written as a
structural map over the character list so that it is kernel-computable
(String.toLower of the core library is defined by well-founded recursion
and does not reduce); Char.toLower lowercases the ASCII range, which
covers every name this code base compares. -/
def pyLower (s : String) : String :=
  String.mk (s.data.map Char.toLower)

/-- Case-folded name key used for name-based deduplication
(name_key = server.name.lower() in src/agent/aggregator.py line 87). -/
def nameKey (server : MCPServer) : String :=
  pyLower server.name

/-- Lookup in the model of the Python dict seen_names.  The dict is
modelled as a shadowing association list: assignment prepends a binding,
lookup takes the first match, matching Python dict lookup semantics. -/
def alLookup (k : String) : List (String × MCPServer) → Option MCPServer
  | [] => none
  | (k2, v) :: rest => if k = k2 then some v else alLookup k rest

/-- Loop of MCPServerAggregator.deduplicate_servers from
src/agent/aggregator.py lines 76-106, with the loop state (seen_ids,
seen_names, deduplicated) passed explicitly.  The set seen_ids is
modelled as a list with membership, the dict seen_names as a shadowing
association list. -/
def dedupGo : List MCPServer → List String → List (String × MCPServer) →
    List MCPServer → List MCPServer
  | [], _, _, deduplicated => deduplicated
  | server :: rest, seen_ids, seen_names, deduplicated =>
    if server.id ∈ seen_ids then
      dedupGo rest seen_ids seen_names deduplicated
    else
      match alLookup (nameKey server) seen_names with
      | some existing =>
        if is_more_complete server existing then
          dedupGo rest (server.id :: seen_ids) ((nameKey server, server) :: seen_names)
            ((deduplicated.filter fun s => s.id != existing.id) ++ [server])
        else
          dedupGo rest seen_ids seen_names deduplicated
      | none =>
        dedupGo rest (server.id :: seen_ids) ((nameKey server, server) :: seen_names)
          (deduplicated ++ [server])

/-- MCPServerAggregator.deduplicate_servers from src/agent/aggregator.py
lines 76-106: the reconcile operation of the spec. -/
def deduplicate_servers (servers : List MCPServer) : List MCPServer :=
  dedupGo servers [] [] []

/-- Result of one successful transport attempt: the discovered tool,
resource and prompt lists, as returned by the _introspect_* helpers of
src/agent/mcp_client.py. -/
abbrev IntrospectionResult := List MCPTool × List MCPResource × List MCPPrompt

/-- Observable outcome, at the call sites inside introspect_server, of
one I/O-performing transport helper (_introspect_docker_stdio or
_introspect_http): it either returns capability lists or raises an
exception whose string is msg. -/
inductive TransportAttempt where
  | ok (result : IntrospectionResult)
  | raised (msg : String)

/-- Abstraction of the external world for one introspection pass: what
the Docker stdio helper and the HTTP helper would do if called.  The
WebSocket helper needs no environment because _introspect_websocket
(src/agent/mcp_client.py lines 365-371) is a stub that always returns
three empty lists and cannot raise. -/
structure ProbeEnv where
  docker_stdio : TransportAttempt
  http : TransportAttempt

/-- Capability lists produced by a transport attempt, or none if the
attempt raised. -/
def attempt_result : TransportAttempt → Option IntrospectionResult
  | .ok r => some r
  | .raised _ => none

/-- Diagnostic strings appended to introspection_errors by a transport
attempt: the tagged exception message if it raised, nothing otherwise. -/
def attempt_errors (tag : String) : TransportAttempt → List String
  | .ok _ => []
  | .raised msg => [tag ++ msg]

/-- Docker stdio branch of introspect_server (src/agent/mcp_client.py
lines 33-55): attempted only when server.docker_image is truthy; yields
the transport result entry if the helper did not raise. -/
def docker_stdio_attempt (env : ProbeEnv) (server : MCPServer) :
    Option IntrospectionResult :=
  if pyTruthyStr server.docker_image then attempt_result env.docker_stdio else none

/-- Error strings contributed by the Docker stdio branch of
introspect_server. -/
def docker_stdio_errors (env : ProbeEnv) (server : MCPServer) : List String :=
  if pyTruthyStr server.docker_image then
    attempt_errors "Docker stdio: " env.docker_stdio
  else []

/-- HTTP branch of introspect_server (src/agent/mcp_client.py lines
57-79): attempted only when server.url is truthy. -/
def http_attempt (env : ProbeEnv) (server : MCPServer) :
    Option IntrospectionResult :=
  if pyTruthyStr server.url then attempt_result env.http else none

/-- Error strings contributed by the HTTP branch of introspect_server. -/
def http_errors (env : ProbeEnv) (server : MCPServer) : List String :=
  if pyTruthyStr server.url then attempt_errors "HTTP: " env.http else []

/-- Guard of the WebSocket branch of introspect_server
(src/agent/mcp_client.py line 82): the supported_transports list is
truthy (non-empty) and contains the websocket transport. -/
def websocket_eligible (server : MCPServer) : Bool :=
  !server.metadata.supported_transports.isEmpty &&
    server.metadata.supported_transports.contains MCPTransport.websocket

/-- WebSocket branch of introspect_server (src/agent/mcp_client.py lines
81-103 calling _introspect_websocket, lines 365-371): when eligible it
always produces empty tool, resource and prompt lists, because the
helper is an unconditional stub; it never raises. -/
def websocket_attempt (server : MCPServer) : Option IntrospectionResult :=
  if websocket_eligible server then some ([], [], []) else none

/-- MCPClient.introspect_server from src/agent/mcp_client.py lines
21-154, as a pure function of the transport environment, the current
time and the record.  The transport_results dict is represented by the
three per-transport options; the preference loop over
[docker_stdio, http, websocket] (lines 108-112) becomes the orElse
chain, whose none case mirrors the if best_result / else branch that
sets the unhealthy status (lines 133-135).  The enclosing try/except of
the Python code only re-labels unexpected exceptions outside the
per-transport handlers and has no counterpart in the pure model, where
no modelled operation raises. -/
def introspect_server (env : ProbeEnv) (now : Nat) (server : MCPServer) :
    MCPServer :=
  let checked : MCPServer := { server with
    health := { server.health with status := "introspecting", last_checked := some now },
    introspection_errors := server.introspection_errors
      ++ docker_stdio_errors env server ++ http_errors env server }
  let docker_res := docker_stdio_attempt env server
  let http_res := http_attempt env server
  let websocket_res := websocket_attempt server
  if docker_res.isSome || http_res.isSome || websocket_res.isSome then
    match docker_res.orElse (fun _ => http_res.orElse fun _ => websocket_res) with
    | some (tools, resources, prompts) =>
      { checked with
        tools := tools
        resources := resources
        prompts := prompts
        health := { checked.health with status := "healthy" }
        last_introspected := some now
        metadata := { checked.metadata with
          capabilities := { checked.metadata.capabilities with
            tools := decide (0 < tools.length)
            resources := decide (0 < resources.length)
            prompts := decide (0 < prompts.length) } } }
    | none =>
      { checked with
        health := { checked.health with
          status := "unhealthy"
          error_message := some "No successful introspection methods" } }
  else
    { checked with
      health := { checked.health with
        status := "unreachable"
        error_message := some "All introspection methods failed" } }

/-- One batch task outcome: awaiting the per-record introspection task
either yields an updated record or raises with a message
(src/agent/mcp_client.py lines 428-438). -/
def task_ok (run : MCPServer → Except String MCPServer) (server : MCPServer) :
    Bool :=
  match run server with
  | .ok _ => true
  | .error _ => false

/-- MCPClient.batch_introspect from src/agent/mcp_client.py lines
413-447.  The argument run abstracts one introspection task (which may
raise, modelled as Except.error); completed is the sequence of records
in completion order as delivered by asyncio.as_completed, a permutation
of the input sequence.  The collection loop appends each successful
task result and drops (only logs) each raising task; the function is
total, modelling that batch_introspect itself never raises. -/
def batch_introspect (run : MCPServer → Except String MCPServer)
    (completed : List MCPServer) : List MCPServer :=
  completed.foldl
    (fun completed_servers server =>
      match run server with
      | .ok result => completed_servers ++ [result]
      | .error _ => completed_servers)
    []

/-! Invariant of the deduplication loop.  The loop state consists of the
seen id set, the name-to-keeper dict and the output sequence; the
invariant ties them together: output ids and case-folded names are
pairwise distinct, every output id has been marked seen, and the
name dict maps the case-folded name of each kept record to that record
and to nothing else. -/

structure DedupInv (ids : List String) (names : List (String × MCPServer))
    (acc : List MCPServer) : Prop where
  id_nodup : acc.Pairwise fun a b => a.id ≠ b.id
  name_nodup : acc.Pairwise fun a b => nameKey a ≠ nameKey b
  ids_seen : ∀ t ∈ acc, t.id ∈ ids
  names_keep : ∀ t ∈ acc, alLookup (nameKey t) names = some t
  keep_mem : ∀ k v, alLookup k names = some v → v ∈ acc ∧ nameKey v = k

theorem DedupInv.empty : DedupInv [] [] [] where
  id_nodup := List.Pairwise.nil
  name_nodup := List.Pairwise.nil
  ids_seen := by intro t ht; cases ht
  names_keep := by intro t ht; cases ht
  keep_mem := by intro k v h; cases h

theorem DedupInv.id_inj {ids names acc} (inv : DedupInv ids names acc) :
    ∀ t ∈ acc, ∀ u ∈ acc, t.id = u.id → t = u := by
  intro t ht u hu he
  by_contra hne
  have hsym : Symmetric fun (a b : MCPServer) => a.id ≠ b.id := by
    intro a b h h2
    exact h h2.symm
  exact inv.id_nodup.forall hsym ht hu hne he

theorem DedupInv.nk_inj {ids names acc} (inv : DedupInv ids names acc) :
    ∀ t ∈ acc, ∀ u ∈ acc, nameKey t = nameKey u → t = u := by
  intro t ht u hu he
  by_contra hne
  have hsym : Symmetric fun (a b : MCPServer) => nameKey a ≠ nameKey b := by
    intro a b h h2
    exact h h2.symm
  exact inv.name_nodup.forall hsym ht hu hne he

theorem DedupInv.fresh {ids names acc} {server : MCPServer}
    (inv : DedupInv ids names acc) (hid : server.id ∉ ids)
    (hlk : alLookup (nameKey server) names = none) :
    DedupInv (server.id :: ids) ((nameKey server, server) :: names)
      (acc ++ [server]) := by
  have hacc_id : ∀ t ∈ acc, t.id ≠ server.id := by
    intro t ht he
    exact hid (he ▸ inv.ids_seen t ht)
  have hacc_nk : ∀ t ∈ acc, nameKey t ≠ nameKey server := by
    intro t ht he
    have := inv.names_keep t ht
    rw [he, hlk] at this
    cases this
  refine ⟨?_, ?_, ?_, ?_, ?_⟩
  · rw [List.pairwise_append]
    refine ⟨inv.id_nodup, by simp, ?_⟩
    intro a ha b hb
    rw [List.mem_singleton] at hb
    subst hb
    exact hacc_id a ha
  · rw [List.pairwise_append]
    refine ⟨inv.name_nodup, by simp, ?_⟩
    intro a ha b hb
    rw [List.mem_singleton] at hb
    subst hb
    exact hacc_nk a ha
  · intro t ht
    rcases List.mem_append.mp ht with h | h
    · exact List.mem_cons_of_mem _ (inv.ids_seen t h)
    · rw [List.mem_singleton] at h
      subst h
      exact List.mem_cons_self _ _
  · intro t ht
    rcases List.mem_append.mp ht with h | h
    · rw [alLookup, if_neg (hacc_nk t h)]
      exact inv.names_keep t h
    · rw [List.mem_singleton] at h
      subst h
      rw [alLookup, if_pos rfl]
  · intro k v h
    rw [alLookup] at h
    by_cases hk : k = nameKey server
    · rw [if_pos hk] at h
      cases h
      exact ⟨List.mem_append_right _ (List.mem_singleton.mpr rfl), hk.symm⟩
    · rw [if_neg hk] at h
      obtain ⟨hmem, hnk⟩ := inv.keep_mem k v h
      exact ⟨List.mem_append_left _ hmem, hnk⟩

theorem DedupInv.replace {ids names acc} {server existing : MCPServer}
    (inv : DedupInv ids names acc) (hid : server.id ∉ ids)
    (hlk : alLookup (nameKey server) names = some existing) :
    DedupInv (server.id :: ids) ((nameKey server, server) :: names)
      ((acc.filter fun t => t.id != existing.id) ++ [server]) := by
  obtain ⟨hex_mem, hex_nk⟩ := inv.keep_mem _ _ hlk
  have hfilter_sub : ∀ t ∈ (acc.filter fun t => t.id != existing.id),
      t ∈ acc ∧ t.id ≠ existing.id := by
    intro t ht
    obtain ⟨h1, h2⟩ := List.mem_filter.mp ht
    exact ⟨h1, by simpa using h2⟩
  have hfilter_id : ∀ t ∈ (acc.filter fun t => t.id != existing.id),
      t.id ≠ server.id := by
    intro t ht he
    exact hid (he ▸ inv.ids_seen t (hfilter_sub t ht).1)
  have hfilter_nk : ∀ t ∈ (acc.filter fun t => t.id != existing.id),
      nameKey t ≠ nameKey server := by
    intro t ht he
    obtain ⟨htacc, htid⟩ := hfilter_sub t ht
    have : t = existing := inv.nk_inj t htacc existing hex_mem (he.trans hex_nk.symm)
    exact htid (this ▸ rfl)
  refine ⟨?_, ?_, ?_, ?_, ?_⟩
  · rw [List.pairwise_append]
    refine ⟨inv.id_nodup.sublist (List.filter_sublist _), by simp, ?_⟩
    intro a ha b hb
    rw [List.mem_singleton] at hb
    subst hb
    exact hfilter_id a ha
  · rw [List.pairwise_append]
    refine ⟨inv.name_nodup.sublist (List.filter_sublist _), by simp, ?_⟩
    intro a ha b hb
    rw [List.mem_singleton] at hb
    subst hb
    exact hfilter_nk a ha
  · intro t ht
    rcases List.mem_append.mp ht with h | h
    · exact List.mem_cons_of_mem _ (inv.ids_seen t (hfilter_sub t h).1)
    · rw [List.mem_singleton] at h
      subst h
      exact List.mem_cons_self _ _
  · intro t ht
    rcases List.mem_append.mp ht with h | h
    · rw [alLookup, if_neg (hfilter_nk t h)]
      exact inv.names_keep t (hfilter_sub t h).1
    · rw [List.mem_singleton] at h
      subst h
      rw [alLookup, if_pos rfl]
  · intro k v h
    rw [alLookup] at h
    by_cases hk : k = nameKey server
    · rw [if_pos hk] at h
      cases h
      exact ⟨List.mem_append_right _ (List.mem_singleton.mpr rfl), hk.symm⟩
    · rw [if_neg hk] at h
      obtain ⟨hmem, hnk⟩ := inv.keep_mem k v h
      have hvex : v ≠ existing := by
        intro he
        exact hk ((hnk.symm.trans (congrArg nameKey he)).trans hex_nk)
      have hvid : v.id ≠ existing.id := by
        intro he
        exact hvex (inv.id_inj v hmem existing hex_mem he)
      refine ⟨List.mem_append_left _ (List.mem_filter.mpr ⟨hmem, ?_⟩), hnk⟩
      simpa using hvid

theorem dedupGo_nodup (l : List MCPServer) :
    ∀ ids names acc, DedupInv ids names acc →
      (dedupGo l ids names acc).Pairwise (fun a b => a.id ≠ b.id) ∧
      (dedupGo l ids names acc).Pairwise (fun a b => nameKey a ≠ nameKey b) := by
  induction l with
  | nil =>
    intro ids names acc inv
    exact ⟨inv.id_nodup, inv.name_nodup⟩
  | cons server rest ih =>
    intro ids names acc inv
    simp only [dedupGo]
    split
    · exact ih _ _ _ inv
    · rename_i hid
      split
      · rename_i existing hlk
        split
        · exact ih _ _ _ (inv.replace hid hlk)
        · exact ih _ _ _ inv
      · rename_i hlk
        exact ih _ _ _ (inv.fresh hid hlk)

theorem dedupGo_fresh_pass (l : List MCPServer) :
    ∀ ids names acc,
      l.Pairwise (fun a b => a.id ≠ b.id) →
      l.Pairwise (fun a b => nameKey a ≠ nameKey b) →
      (∀ t ∈ l, t.id ∉ ids) →
      (∀ t ∈ l, alLookup (nameKey t) names = none) →
      dedupGo l ids names acc = acc ++ l := by
  induction l with
  | nil =>
    intro ids names acc _ _ _ _
    simp [dedupGo]
  | cons server rest ih =>
    intro ids names acc hpid hpnk hids hnames
    obtain ⟨hid_head, hpid_tail⟩ := List.pairwise_cons.mp hpid
    obtain ⟨hnk_head, hpnk_tail⟩ := List.pairwise_cons.mp hpnk
    have hids2 : ∀ t ∈ rest, t.id ∉ server.id :: ids := by
      intro t ht he
      rcases List.mem_cons.mp he with h | h
      · exact hid_head t ht h.symm
      · exact hids t (List.mem_cons_of_mem _ ht) h
    have hnames2 : ∀ t ∈ rest,
        alLookup (nameKey t) ((nameKey server, server) :: names) = none := by
      intro t ht
      rw [alLookup, if_neg fun he => hnk_head t ht he.symm]
      exact hnames t (List.mem_cons_of_mem _ ht)
    simp only [dedupGo]
    rw [if_neg (hids server (List.mem_cons_self _ _)),
      hnames server (List.mem_cons_self _ _)]
    rw [ih _ _ _ hpid_tail hpnk_tail hids2 hnames2]
    simp

/-- C3: for every input sequence of server records, no two records in the
output of reconcile (deduplicate_servers) have equal id fields. -/
theorem reconcile_id_unique (X : List MCPServer) :
    (deduplicate_servers X).Pairwise fun a b => a.id ≠ b.id :=
  (dedupGo_nodup X [] [] [] DedupInv.empty).1

/-- C4: for every input sequence of server records, no two records in the
output of reconcile (deduplicate_servers) have names that are equal after
case-folding with name.lower(). -/
theorem reconcile_name_unique (X : List MCPServer) :
    (deduplicate_servers X).Pairwise fun a b => pyLower a.name ≠ pyLower b.name :=
  (dedupGo_nodup X [] [] [] DedupInv.empty).2

/-- C2: reconciliation is idempotent: running deduplicate_servers a second
time over its own output returns that output unchanged, including order. -/
theorem reconcile_idempotent (X : List MCPServer) :
    deduplicate_servers (deduplicate_servers X) = deduplicate_servers X := by
  obtain ⟨hpid, hpnk⟩ := dedupGo_nodup X [] [] [] DedupInv.empty
  have h := dedupGo_fresh_pass (deduplicate_servers X) [] [] [] hpid hpnk
    (by intro t _ h; cases h) (by intro t _; rfl)
  simpa [deduplicate_servers] using h

/-- C5: a later record with an already-seen id is dropped unconditionally,
before any completeness comparison: for records A and A2 with equal ids,
even when A2 scores strictly higher, reconcile keeps A and drops A2. -/
theorem first_id_wins (A A2 : MCPServer) (hid : A.id = A2.id)
    (hscore : completeness_score A < completeness_score A2) :
    deduplicate_servers [A, A2] = [A] := by
  unfold deduplicate_servers
  simp only [dedupGo]
  rw [if_neg (List.not_mem_nil A.id)]
  rw [show alLookup (nameKey A) [] = none from rfl]
  rw [if_pos (List.mem_singleton.mpr hid.symm)]
  simp [dedupGo]

/-- Two records sharing the id dup/x, the later one strictly more
complete (it has a description), used to witness the first-id-wins
short-circuit at a concrete input. -/
def dup_first : MCPServer :=
  { id := "dup/x", name := "alpha", source := "registry" }

/-- Later record with the same id as dup_first and a strictly higher
completeness score. -/
def dup_second : MCPServer :=
  { id := "dup/x", name := "beta", source := "registry",
    description := some "richer record" }

/-- Witness for C5 at a concrete input: the ids coincide, the later
record scores strictly higher, and reconcile still keeps the first. -/
theorem first_id_wins_witness :
    dup_first.id = dup_second.id ∧
    completeness_score dup_first < completeness_score dup_second ∧
    deduplicate_servers [dup_first, dup_second] = [dup_first] :=
  ⟨rfl, by decide, first_id_wins dup_first dup_second rfl (by decide)⟩

/-- First record of the concrete merge scenario: a registry record with
no optional fields. -/
def registry_record : MCPServer :=
  { id := "a/x", name := "Foo", source := "registry" }

/-- Second record of the concrete merge scenario: a Docker Hub record
with an image reference and a pull count (the spec names the source
container_hub and the field image_reference; the code spells them
docker_hub and docker_image). -/
def dockerhub_record : MCPServer :=
  { id := "b/x", name := "foo", source := "docker_hub",
    docker_image := some "b/x", docker_pull_count := some 10 }

/-- C6: on the two concrete records of the scenario, reconcile returns a
single record, the Docker Hub one with id b/x, because its completeness
score is 3 + 2 = 5 (image reference plus Docker Hub affinity bonus)
against 0 for the registry record. -/
theorem reconcile_concrete_scenario :
    completeness_score registry_record = 0 ∧
    completeness_score dockerhub_record = 5 ∧
    (deduplicate_servers [registry_record, dockerhub_record]).length = 1 ∧
    (deduplicate_servers [registry_record, dockerhub_record]).map
      (fun s => s.id) = ["b/x"] :=
  ⟨rfl, rfl, rfl, rfl⟩

/-- C7: whatever the record and whatever the transports do, the record
returned by introspect_server carries one of the three terminal health
statuses healthy, unhealthy or unreachable; it is never left at
introspecting or unknown. -/
theorem introspect_terminal_status (env : ProbeEnv) (now : Nat)
    (server : MCPServer) :
    (introspect_server env now server).health.status = "healthy" ∨
    (introspect_server env now server).health.status = "unhealthy" ∨
    (introspect_server env now server).health.status = "unreachable" := by
  simp only [introspect_server]
  split
  · split
    · left
      rfl
    · right
      left
      rfl
  · right
    right
    rfl

/-- C1 (amended): whenever no transport produced a result, whether some
transports were attempted and all failed or no transport was eligible at
all, introspect_server returns the record with health status unreachable
and error message All introspection methods failed. -/
theorem introspect_no_result_unreachable (env : ProbeEnv) (now : Nat)
    (server : MCPServer)
    (hd : docker_stdio_attempt env server = none)
    (hh : http_attempt env server = none)
    (hw : websocket_attempt server = none) :
    (introspect_server env now server).health.status = "unreachable" ∧
    (introspect_server env now server).health.error_message =
      some "All introspection methods failed" := by
  simp only [introspect_server, hd, hh, hw]
  exact ⟨rfl, rfl⟩

/-- Record with an image reference only, so that exactly one transport
(Docker stdio) is eligible; used as the concrete input on which the
attempted-but-failed case is observed. -/
def docker_only_server : MCPServer :=
  { id := "example/stdio-only", name := "stdio-only", source := "registry",
    docker_image := some "example/stdio-only" }

/-- Environment in which both I/O transports raise. -/
def failing_env : ProbeEnv :=
  { docker_stdio := .raised "connection refused",
    http := .raised "connection refused" }

/-- C1 (counterexample): on a record whose Docker stdio transport is
attempted (the image reference is truthy) and fails, introspect_server
sets status unreachable with message All introspection methods failed,
not status unhealthy with message No successful introspection methods as
the claim states: the unhealthy branch of the code is unreachable, since
a non-empty transport_results dict always yields a best result. -/
theorem introspect_attempted_failure_counterexample :
    pyTruthyStr docker_only_server.docker_image = true ∧
    docker_stdio_attempt failing_env docker_only_server = none ∧
    (introspect_server failing_env 0 docker_only_server).introspection_errors =
      ["Docker stdio: connection refused"] ∧
    (introspect_server failing_env 0 docker_only_server).health.status =
      "unreachable" ∧
    (introspect_server failing_env 0 docker_only_server).health.status ≠
      "unhealthy" ∧
    (introspect_server failing_env 0 docker_only_server).health.error_message ≠
      some "No successful introspection methods" :=
  ⟨rfl, rfl, rfl, rfl, by decide, by decide⟩

/-- Witness for the amended C1 at a concrete input: on docker_only_server
under failing_env no transport produces a result, and the returned
record is unreachable with the All introspection methods failed
message. -/
theorem introspect_no_result_unreachable_witness :
    docker_stdio_attempt failing_env docker_only_server = none ∧
    http_attempt failing_env docker_only_server = none ∧
    websocket_attempt docker_only_server = none ∧
    ((introspect_server failing_env 0 docker_only_server).health.status =
        "unreachable" ∧
      (introspect_server failing_env 0 docker_only_server).health.error_message =
        some "All introspection methods failed") :=
  ⟨rfl, rfl, rfl,
    introspect_no_result_unreachable failing_env 0 docker_only_server rfl rfl rfl⟩

/-- C9: for every record advertising the websocket transport, the
websocket attempt always produces the stub result with empty tool,
resource and prompt lists, so introspection always ends healthy; and if
neither the Docker stdio nor the HTTP transport produced a result, the
returned record has empty tools, resources and prompts. -/
theorem websocket_stub_healthy (env : ProbeEnv) (now : Nat)
    (server : MCPServer)
    (hw : MCPTransport.websocket ∈ server.metadata.supported_transports) :
    websocket_attempt server = some ([], [], []) ∧
    (introspect_server env now server).health.status = "healthy" ∧
    (docker_stdio_attempt env server = none → http_attempt env server = none →
      (introspect_server env now server).tools = [] ∧
      (introspect_server env now server).resources = [] ∧
      (introspect_server env now server).prompts = []) := by
  have hwa : websocket_attempt server = some ([], [], []) := by
    have h1 : server.metadata.supported_transports.contains
        MCPTransport.websocket = true := by
      exact List.elem_eq_true_of_mem hw
    have h2 : server.metadata.supported_transports.isEmpty = false := by
      cases h : server.metadata.supported_transports with
      | nil => rw [h] at hw; cases hw
      | cons a l => rfl
    rw [websocket_attempt, if_pos]
    rw [websocket_eligible, h1, h2]
    rfl
  refine ⟨hwa, ?_, ?_⟩
  · simp only [introspect_server, hwa]
    cases hd : docker_stdio_attempt env server with
    | some r =>
      cases r with
      | mk tools rest => cases rest with
        | mk resources prompts => rfl
    | none =>
      cases hh : http_attempt env server with
      | some r =>
        cases r with
        | mk tools rest => cases rest with
          | mk resources prompts => rfl
      | none => rfl
  · intro hd hh
    simp only [introspect_server, hwa, hd, hh]
    exact ⟨rfl, rfl, rfl⟩

/-- Record advertising only the websocket transport, with no image
reference and no URL. -/
def websocket_only_server : MCPServer :=
  { id := "example/ws", name := "ws-stub", source := "registry",
    metadata := { supported_transports := [MCPTransport.websocket] } }

/-- Witness for C9 at a concrete input: websocket_only_server declares
websocket support, the stub attempt produces empty lists, and under the
all-failing environment introspection ends healthy with empty capability
lists. -/
theorem websocket_stub_healthy_witness :
    MCPTransport.websocket ∈
      websocket_only_server.metadata.supported_transports ∧
    (websocket_attempt websocket_only_server = some ([], [], []) ∧
      (introspect_server failing_env 0 websocket_only_server).health.status =
        "healthy" ∧
      (docker_stdio_attempt failing_env websocket_only_server = none →
        http_attempt failing_env websocket_only_server = none →
        (introspect_server failing_env 0 websocket_only_server).tools = [] ∧
        (introspect_server failing_env 0 websocket_only_server).resources = [] ∧
        (introspect_server failing_env 0 websocket_only_server).prompts = [])) :=
  ⟨by decide, websocket_stub_healthy failing_env 0 websocket_only_server (by decide)⟩

theorem batch_foldl (run : MCPServer → Except String MCPServer) :
    ∀ (l acc : List MCPServer),
      l.foldl
        (fun completed_servers server =>
          match run server with
          | Except.ok result => completed_servers ++ [result]
          | Except.error _ => completed_servers)
        acc =
      acc ++ l.filterMap fun server =>
        match run server with
        | Except.ok result => some result
        | Except.error _ => none := by
  intro l
  induction l with
  | nil =>
    intro acc
    simp
  | cons server rest ih =>
    intro acc
    simp only [List.foldl_cons, List.filterMap_cons]
    cases h : run server with
    | ok result =>
      rw [ih]
      simp
    | error e =>
      rw [ih]

theorem batch_filterMap_length (run : MCPServer → Except String MCPServer) :
    ∀ l : List MCPServer,
      (l.filterMap fun server =>
        match run server with
        | Except.ok result => some result
        | Except.error _ => none).length = l.countP (task_ok run) := by
  intro l
  induction l with
  | nil => rfl
  | cons server rest ih =>
    simp only [List.filterMap_cons, List.countP_cons]
    cases h : run server with
    | ok result =>
      have : task_ok run server = true := by rw [task_ok, h]
      simp [this, ih]
    | error e =>
      have : task_ok run server = false := by rw [task_ok, h]
      simp [this, ih]

theorem countP_add_countP_not_self (p : MCPServer → Bool) :
    ∀ l : List MCPServer, l.countP p + l.countP (fun s => !p s) = l.length := by
  intro l
  induction l with
  | nil => rfl
  | cons server rest ih =>
    simp only [List.countP_cons, List.length_cons]
    cases h : p server <;> simp [h] <;> omega

/-- C8: best-effort batch isolation.  The run function abstracts one
per-record introspection task; completed is the completion order
delivered by as_completed, a permutation of the input sequence.  If
exactly one task raises, batch_introspect returns exactly N - 1 records,
every returned record is the successful outcome of some task (the
failing record is dropped, not replaced by a placeholder), and
batch_introspect is total, so it never raises. -/
theorem batch_isolation (run : MCPServer → Except String MCPServer)
    (servers completed : List MCPServer)
    (hperm : completed.Perm servers)
    (hone : servers.countP (fun s => !task_ok run s) = 1) :
    (batch_introspect run completed).length = servers.length - 1 ∧
    ∀ r ∈ batch_introspect run completed,
      ∃ s ∈ completed, run s = Except.ok r := by
  have heq : batch_introspect run completed =
      completed.filterMap fun server =>
        match run server with
        | Except.ok result => some result
        | Except.error _ => none := by
    rw [batch_introspect, batch_foldl run completed []]
    rfl
  constructor
  · rw [heq, batch_filterMap_length run completed, hperm.countP_eq (task_ok run)]
    have hsplit := countP_add_countP_not_self (task_ok run) servers
    have hlen := hperm.length_eq
    omega
  · intro r hr
    rw [heq] at hr
    obtain ⟨s, hs, hgs⟩ := List.mem_filterMap.mp hr
    refine ⟨s, hs, ?_⟩
    cases h : run s with
    | ok result =>
      rw [h] at hgs
      cases hgs
      rfl
    | error e =>
      rw [h] at hgs
      cases hgs

/-- Record whose introspection task succeeds in the batch witness. -/
def batch_record_one : MCPServer :=
  { id := "batch/one", name := "batch-one", source := "registry" }

/-- Record whose introspection task raises in the batch witness. -/
def batch_record_bad : MCPServer :=
  { id := "batch/bad", name := "batch-bad", source := "registry" }

/-- Second record whose introspection task succeeds in the batch
witness. -/
def batch_record_two : MCPServer :=
  { id := "batch/two", name := "batch-two", source := "registry" }

/-- Concrete per-record task used in the batch witness: it raises
exactly on batch_record_bad and returns every other record unchanged. -/
def batch_run (server : MCPServer) : Except String MCPServer :=
  if server.id = "batch/bad" then Except.error "introspection task raised"
  else Except.ok server

/-- Witness for C8 at a concrete input: of three records exactly one
task raises, and the batch returns exactly two records, each the
successful outcome of one task. -/
theorem batch_isolation_witness :
    List.Perm [batch_record_one, batch_record_bad, batch_record_two]
      [batch_record_one, batch_record_bad, batch_record_two] ∧
    ([batch_record_one, batch_record_bad, batch_record_two].countP
      fun s => !task_ok batch_run s) = 1 ∧
    ((batch_introspect batch_run
        [batch_record_one, batch_record_bad, batch_record_two]).length =
      [batch_record_one, batch_record_bad, batch_record_two].length - 1 ∧
    ∀ r ∈ batch_introspect batch_run
        [batch_record_one, batch_record_bad, batch_record_two],
      ∃ s ∈ [batch_record_one, batch_record_bad, batch_record_two],
        batch_run s = Except.ok r) :=
  ⟨List.Perm.refl _, by decide,
    batch_isolation batch_run
      [batch_record_one, batch_record_bad, batch_record_two]
      [batch_record_one, batch_record_bad, batch_record_two]
      (List.Perm.refl _) (by decide)⟩

end DockerMCPScraper
